import Mathlib

/-!
Verification of `prune_ssh_known_hosts.py`, a one-module tool that scans an
SSH known_hosts file and prints `sed` commands for duplicate lines and for
lines whose host token does not resolve in DNS.

The script is shallowly embedded below.  Python strings are `String`,
Python dicts are association lists (insertion ordered), the two DNS calls
`socket.gethostbyname` / `socket.gethostbyaddr` are modelled by two oracle
parameters `fwd rev : String → Bool` (`true` = resolves), uncaught Python
exceptions (tuple-unpacking `ValueError`) are modelled by `Option` /
`Except`, and `print` statements are collected into a `List String` of
output lines, in order.
-/

/-- Whitespace characters stripped by Python's `str.strip()` and used by
`str.split()` with no separator. -/
def isPySpace (c : Char) : Bool :=
  c = ' ' || c = '\t' || c = '\n' || c = '\r' || c = '\x0b' || c = '\x0c'

/-- Embedding of Python's `fline.strip()`. -/
def pyStrip (s : String) : String :=
  String.mk (((s.data.dropWhile isPySpace).reverse.dropWhile isPySpace).reverse)

/-- Helper for `pySplit`: split a character list on runs of whitespace,
dropping empty chunks; `acc` holds the current chunk, reversed. -/
def pySplitWsAux : List Char → List Char → List (List Char)
  | [], acc => if acc.isEmpty then [] else [acc.reverse]
  | c :: cs, acc =>
    if isPySpace c then
      if acc.isEmpty then pySplitWsAux cs [] else acc.reverse :: pySplitWsAux cs []
    else
      pySplitWsAux cs (c :: acc)

/-- Embedding of Python's `fline.split()` (split on whitespace runs,
no empty fields). -/
def pySplit (s : String) : List String :=
  (pySplitWsAux s.data []).map String.mk

/-- Helper for `pySplitComma`: split at every comma, keeping empty chunks. -/
def pySplitCommaAux : List Char → List Char → List (List Char)
  | [], acc => [acc.reverse]
  | c :: cs, acc =>
    if c = ',' then acc.reverse :: pySplitCommaAux cs [] else pySplitCommaAux cs (c :: acc)

/-- Embedding of Python's `host.split(',')`. -/
def pySplitComma (s : String) : List String :=
  (pySplitCommaAux s.data []).map String.mk

/-- Embedding of Python's `c in s` membership test for a single character. -/
def containsChar (s : String) (c : Char) : Bool :=
  s.data.contains c

/-- Length of the leading digit run, for the dotted-quad regex. -/
def countDigitsPre (cs : List Char) : Nat :=
  (cs.takeWhile Char.isDigit).length

/-- Matcher for the regex `\d{1,3}\.` repeated `n` times and then a final
`\d{1,3}`, anchored at the start (Python `re.match` semantics: a prefix
match, nothing is required after the last group).  Because `\d{1,3}` is
followed by a literal dot, backtracking succeeds exactly when each leading
digit run has length 1..3 and is followed by a dot. -/
def dqGroups : Nat → List Char → Bool
  | 0, cs => decide (1 ≤ countDigitsPre cs)
  | n + 1, cs =>
    (decide (1 ≤ countDigitsPre cs) && decide (countDigitsPre cs ≤ 3)) &&
      (match cs.drop (countDigitsPre cs) with
       | '.' :: rest => dqGroups n rest
       | _ => false)

/-- Embedding of `re.match(r"\d{1,3}\.\d{1,3}\.\d{1,3}\.\d{1,3}", host)`. -/
def dottedQuadMatch (s : String) : Bool :=
  dqGroups 3 s.data

/-- Embedding of `re.match('^\s*#', fline)` (a comment line). -/
def isCommentLine (s : String) : Bool :=
  match s.data.dropWhile isPySpace with
  | '#' :: _ => true
  | _ => false

/-- Classification and resolution of one host token, lines 84-99 of the
script.  `fwd` models `resolve_hostname` (forward lookup), `rev` models
`resolve_ipaddr` (reverse lookup).  `none` models the uncaught
`ValueError` raised by `(hostname, ipaddr) = host.split(',')` when the
token holds two or more commas. -/
def classifyHost (fwd rev : String → Bool) (host : String) : Option Bool :=
  if containsChar host ',' then
    match pySplitComma host with
    | [hostname, _ipaddr] => some (fwd hostname)
    | _ => none
  else if containsChar host ':' then
    some (rev host)
  else if dottedQuadMatch host then
    some (rev host)
  else
    some (fwd host)

/-- Embedding of the duplicate-index update (lines 69-72): append the line
number to the entry of `k`, or create a fresh one-element entry. -/
def addEntry : List (String × List Nat) → String → Nat → List (String × List Nat)
  | [], k, n => [(k, [n])]
  | (k', v) :: rest, k, n =>
    if k' = k then (k', v ++ [n]) :: rest else (k', v) :: addEntry rest k n

/-- Embedding of `non_resolving_hosts[host] = lineno` (line 102): overwrite
the entry of `k`, or create it. -/
def setHost : List (String × Nat) → String → Nat → List (String × Nat)
  | [], k, n => [(k, n)]
  | (k', v) :: rest, k, n =>
    if k' = k then (k', n) :: rest else (k', v) :: setHost rest k n

/-- Embedding of the scan loop of `main` (lines 56-102).  The state is the
pair `(all_entries, non_resolving_hosts)`; `lineno` is the number of lines
already consumed; `none` models an uncaught exception (a retained line
that does not split into exactly three fields, or a multi-comma token). -/
def scanLines (fwd rev : String → Bool) :
    List String → Nat → List (String × List Nat) × List (String × Nat) →
    Option (List (String × List Nat) × List (String × Nat))
  | [], _, st => some st
  | l :: ls, lineno, st =>
    if pyStrip l = "" then
      scanLines fwd rev ls (lineno + 1) st
    else if isCommentLine (pyStrip l) then
      scanLines fwd rev ls (lineno + 1) st
    else
      match pySplit (pyStrip l) with
      | [host, _keyType, _keyData] =>
        match classifyHost fwd rev host with
        | some res =>
          scanLines fwd rev ls (lineno + 1)
            (addEntry st.1 (pyStrip l) (lineno + 1),
             if res then st.2 else setHost st.2 host (lineno + 1))
        | none => none
      | _ => none

/-- The command-line options of the script (argparse flags). -/
structure Args where
  verbose : Bool
  hostsfile : Option String
  duplicates : Bool
  non_resolving : Bool
  split_sed : Bool

/-- Filename selection, lines 36-42.  An explicit `-f` value wins unless it
is empty (Python truthiness); otherwise `$HOME/.ssh/known_hosts` when
`HOME` is set, else the relative path `.ssh/known_hosts`. -/
def computeFilename (hostsfile : Option String) (home : Option String) : String :=
  match hostsfile with
  | some fn =>
    if fn = "" then
      match home with
      | some h => h ++ "/.ssh/known_hosts"
      | none => ".ssh/known_hosts"
    else fn
  | none =>
    match home with
    | some h => h ++ "/.ssh/known_hosts"
    | none => ".ssh/known_hosts"

/-- One merged-mode sed expression, `" -e '%ds/^\(.*\)/##  \\1/'" % lineno`
(line 150 and line 173). -/
def sedExpr (lineno : Nat) : String :=
  " -e \x27" ++ toString lineno ++ "s/^\\(.*\\)/##  \\1/\x27"

/-- One split-mode sed command, `"sed '%ds/^\(.*\)/##  \\1/' %s"`
(line 148 and line 171). -/
def sedSplitCmd (lineno : Nat) (filename : String) : String :=
  "sed \x27" ++ toString lineno ++ "s/^\\(.*\\)/##  \\1/\x27 " ++ filename

/-- Python's `str([2, 4])` rendering used by the verbose duplicate line. -/
def pyIntListStr (ns : List Nat) : String :=
  "[" ++ String.intercalate ", " (ns.map toString) ++ "]"

/-- Inner candidate loop of `print_duplicates` (lines 145-150): returns the
printed lines and the updated `sed_str` accumulator. -/
def emitCands (args : Args) (filename : String) : List Nat → String → List String × String
  | [], sedStr => ([], sedStr)
  | n :: ns, sedStr =>
    if args.split_sed then
      (sedSplitCmd n filename :: (emitCands args filename ns sedStr).1,
       (emitCands args filename ns sedStr).2)
    else
      emitCands args filename ns (sedStr ++ sedExpr n)

/-- Entry loop of `print_duplicates` (lines 138-150). -/
def dupLoop (args : Args) (filename : String) :
    List (String × List Nat) → String → List String × String
  | [], sedStr => ([], sedStr)
  | (fline, linenos) :: rest, sedStr =>
    if linenos.length > 1 then
      ((if args.verbose && args.split_sed then
          ["# Duplicate entry: " ++ fline ++ ": " ++ pyIntListStr linenos]
        else []) ++
        (emitCands args filename (linenos.drop 1) sedStr).1 ++
        (dupLoop args filename rest (emitCands args filename (linenos.drop 1) sedStr).2).1,
       (dupLoop args filename rest (emitCands args filename (linenos.drop 1) sedStr).2).2)
    else
      dupLoop args filename rest sedStr

/-- Embedding of `print_duplicates` (lines 132-154): the list of lines it
prints. -/
def print_duplicates (args : Args) (allEntries : List (String × List Nat))
    (filename : String) : List String :=
  (if args.verbose then ["# Duplicate entries:"] else []) ++
    (dupLoop args filename allEntries "").1 ++
    (if (dupLoop args filename allEntries "").2 ≠ "" ∧ args.split_sed = false then
       ["sed " ++ (dupLoop args filename allEntries "").2 ++ " " ++ filename]
     else [])

/-- Entry loop of `print_non_resolving` (lines 164-173). -/
def nrLoop (args : Args) (filename : String) :
    List (String × Nat) → String → List String × String
  | [], sedStr => ([], sedStr)
  | (host, lineno) :: rest, sedStr =>
    if args.split_sed then
      ((if args.verbose && args.split_sed then
          ["# Issue: doesn\x27t resolve: " ++ host]
        else []) ++
        (sedSplitCmd lineno filename :: (nrLoop args filename rest sedStr).1),
       (nrLoop args filename rest sedStr).2)
    else
      ((if args.verbose && args.split_sed then
          ["# Issue: doesn\x27t resolve: " ++ host]
        else []) ++
        (nrLoop args filename rest (sedStr ++ sedExpr lineno)).1,
       (nrLoop args filename rest (sedStr ++ sedExpr lineno)).2)

/-- Embedding of `print_non_resolving` (lines 158-177): the list of lines
it prints. -/
def print_non_resolving (args : Args) (nonResolvingHosts : List (String × Nat))
    (filename : String) : List String :=
  (if args.verbose then ["# Non-resolving entries:"] else []) ++
    (nrLoop args filename nonResolvingHosts "").1 ++
    (if (nrLoop args filename nonResolvingHosts "").2 ≠ "" ∧ args.split_sed = false then
       ["sed " ++ (nrLoop args filename nonResolvingHosts "").2 ++ " " ++ filename]
     else [])

/-- Embedding of `main` (lines 31-112).  `fileOrErr` models the result of
`open(filename)`: `Except.error reason` is an `IOError` carrying
`str(reason)`.  The result is `Except.ok output` for a normal run (also
for the handled open failure, which returns `None` from `main`), and
`Except.error output` when the scan dies on an uncaught exception; either
way the payload is the list of lines printed before termination. -/
def mainRun (args : Args) (fwd rev : String → Bool) (home : Option String)
    (fileOrErr : Except String (List String)) : Except (List String) (List String) :=
  match fileOrErr with
  | Except.error reason => Except.ok ["Could not open hostsfile: " ++ reason]
  | Except.ok flines =>
    match scanLines fwd rev flines 0 ([], []) with
    | none =>
      Except.error
        (if args.verbose then
           ["# Reading hostsfile " ++ computeFilename args.hostsfile home]
         else [])
    | some st =>
      Except.ok
        ((if args.verbose then
            ["# Reading hostsfile " ++ computeFilename args.hostsfile home]
          else []) ++
          (if args.duplicates then
             print_duplicates args st.1 (computeFilename args.hostsfile home)
           else []) ++
          (if args.non_resolving then
             print_non_resolving args st.2 (computeFilename args.hostsfile home)
           else []))

/-- All printed lines of a run, whether it ended normally or by an
uncaught exception. -/
def mainOutput : Except (List String) (List String) → List String
  | Except.ok out => out
  | Except.error out => out

/-! ### Specification-side definitions -/

/-- The 1-based line numbers (offset by `base`) of the lines of `ls` that
are retained (non-blank, non-comment after stripping) and whose stripped
text is exactly `text`. -/
def retainedOccs : List String → Nat → String → List Nat
  | [], _, _ => []
  | l :: ls, base, text =>
    if pyStrip l ≠ "" ∧ isCommentLine (pyStrip l) = false ∧ pyStrip l = text then
      (base + 1) :: retainedOccs ls (base + 1) text
    else
      retainedOccs ls (base + 1) text

/-- The 1-based line numbers (offset by `base`) of the retained
three-field lines whose host token is `host` and whose classification
fails to resolve. -/
def tokenFailLines (fwd rev : String → Bool) : List String → Nat → String → List Nat
  | [], _, _ => []
  | l :: ls, base, host =>
    if pyStrip l = "" ∨ isCommentLine (pyStrip l) = true then
      tokenFailLines fwd rev ls (base + 1) host
    else
      match pySplit (pyStrip l) with
      | [h, _kt, _kd] =>
        if h = host ∧ classifyHost fwd rev h = some false then
          (base + 1) :: tokenFailLines fwd rev ls (base + 1) host
        else
          tokenFailLines fwd rev ls (base + 1) host
      | _ => tokenFailLines fwd rev ls (base + 1) host

/-- Lookup in the duplicate index. -/
def lookupList : List (String × List Nat) → String → Option (List Nat)
  | [], _ => none
  | (k', v) :: rest, k => if k' = k then some v else lookupList rest k

/-- Lookup in the non-resolving index. -/
def lookupNat : List (String × Nat) → String → Option Nat
  | [], _ => none
  | (k', v) :: rest, k => if k' = k then some v else lookupNat rest k

/-- Number of index entries keyed by `s`. -/
def countKey : List (String × Nat) → String → Nat
  | [], _ => 0
  | (k', _) :: rest, s => (if k' = s then 1 else 0) + countKey rest s

/-- Last element of a list of line numbers, if any. -/
def lastOpt : List Nat → Option Nat
  | [] => none
  | [n] => some n
  | _ :: m :: rest => lastOpt (m :: rest)

/-- `lastOpt l`, falling back on `o` when `l` is empty. -/
def lastOr (o : Option Nat) (l : List Nat) : Option Nat :=
  match lastOpt l with
  | some n => some n
  | none => o

/-- The duplicate removal candidates of the whole index, in report order:
for each entry with more than one occurrence, all occurrences but the
first. -/
def dupCands : List (String × List Nat) → List Nat
  | [] => []
  | (_, linenos) :: rest =>
    (if linenos.length > 1 then linenos.drop 1 else []) ++ dupCands rest

/-- The duplicate removal candidates contributed by the entry keyed
`text`. -/
def dupCandsFor (ae : List (String × List Nat)) (text : String) : List Nat :=
  match lookupList ae text with
  | some linenos => if linenos.length > 1 then linenos.drop 1 else []
  | none => []

/-- An actionable output line: a printed line that is a `sed` command
(every such line starts with the three characters `sed`). -/
def isSedLine (s : String) : Bool :=
  match s.data with
  | 's' :: 'e' :: 'd' :: _ => true
  | _ => false

/-- Concatenation of a list of strings. -/
def concatStrs : List String → String
  | [] => ""
  | s :: rest => s ++ concatStrs rest

/-- Combination of an inherited duplicate-index entry with the occurrences
contributed by the remaining lines. -/
def combineOcc : Option (List Nat) → List Nat → Option (List Nat)
  | none, [] => none
  | none, occ => some occ
  | some v, occ => some (v ++ occ)

/-- First character of a string, if any. -/
def strHead (s : String) : Option Char :=
  s.data.head?

/-- Key-uniqueness invariant of the non-resolving index: each key occurs
exactly once when present. -/
def nrInv (nr : List (String × Nat)) : Prop :=
  ∀ s, countKey nr s = if (lookupNat nr s).isSome then 1 else 0

/-! ### String helper lemmas -/

lemma str_append_assoc : ∀ a b c : String, a ++ b ++ c = a ++ (b ++ c)
  | ⟨a⟩, ⟨b⟩, ⟨c⟩ => congrArg String.mk (List.append_assoc a b c)

lemma str_nil_append : ∀ s : String, "" ++ s = s
  | ⟨_⟩ => rfl

lemma str_append_nil : ∀ s : String, s ++ "" = s
  | ⟨a⟩ => congrArg String.mk (List.append_nil a)

lemma sedExpr_append_ne (n : Nat) (s : String) : sedExpr n ++ s ≠ "" := by
  intro h
  have h1 : strHead (sedExpr n ++ s) = some ' ' := rfl
  rw [h] at h1
  exact absurd h1 (by decide)

lemma concatStrs_append (a b : List String) :
    concatStrs (a ++ b) = concatStrs a ++ concatStrs b := by
  induction a with
  | nil => exact (str_nil_append _).symm
  | cons s rest ih =>
    show concatStrs (s :: (rest ++ b)) = concatStrs (s :: rest) ++ concatStrs b
    simp only [concatStrs]
    rw [ih, str_append_assoc]

lemma isSedLine_reading (s : String) : isSedLine ("# Reading hostsfile " ++ s) = false := rfl

lemma isSedLine_dupHeader : isSedLine "# Duplicate entries:" = false := rfl

lemma isSedLine_nrHeader : isSedLine "# Non-resolving entries:" = false := rfl

lemma isSedLine_dupDiag (a b : String) :
    isSedLine ("# Duplicate entry: " ++ a ++ ": " ++ b) = false := rfl

lemma isSedLine_nrDiag (a : String) :
    isSedLine ("# Issue: doesn\x27t resolve: " ++ a) = false := rfl

lemma isSedLine_split (n : Nat) (fn : String) : isSedLine (sedSplitCmd n fn) = true := rfl

lemma isSedLine_merged (s : String) : isSedLine ("sed " ++ s) = true := rfl

lemma isSedLine_openErr (s : String) :
    isSedLine ("Could not open hostsfile: " ++ s) = false := rfl

/-! ### Association list lemmas -/

lemma lookupList_addEntry_self : ∀ (ae : List (String × List Nat)) (k : String) (n : Nat),
    lookupList (addEntry ae k n) k = some ((lookupList ae k).getD [] ++ [n])
  | [], k, n => by simp [addEntry, lookupList]
  | (k', v) :: rest, k, n => by
    by_cases h : k' = k
    · subst h; simp [addEntry, lookupList]
    · simp [addEntry, lookupList, h, lookupList_addEntry_self rest k n]

lemma lookupList_addEntry_ne : ∀ (ae : List (String × List Nat)) (k : String) (n : Nat)
    (t : String), t ≠ k → lookupList (addEntry ae k n) t = lookupList ae t
  | [], k, n, t, ht => by
    simp [addEntry, lookupList, Ne.symm ht]
  | (k', v) :: rest, k, n, t, ht => by
    by_cases h : k' = k
    · subst h
      simp [addEntry, lookupList, Ne.symm ht]
    · simp only [addEntry, if_neg h, lookupList]
      by_cases h2 : k' = t
      · simp [h2]
      · simp [h2, lookupList_addEntry_ne rest k n t ht]

lemma lookupNat_setHost_self : ∀ (nr : List (String × Nat)) (k : String) (n : Nat),
    lookupNat (setHost nr k n) k = some n
  | [], k, n => by simp [setHost, lookupNat]
  | (k', v) :: rest, k, n => by
    by_cases h : k' = k
    · subst h; simp [setHost, lookupNat]
    · simp [setHost, lookupNat, h, lookupNat_setHost_self rest k n]

lemma lookupNat_setHost_ne : ∀ (nr : List (String × Nat)) (k : String) (n : Nat)
    (t : String), t ≠ k → lookupNat (setHost nr k n) t = lookupNat nr t
  | [], k, n, t, ht => by
    simp [setHost, lookupNat, Ne.symm ht]
  | (k', v) :: rest, k, n, t, ht => by
    by_cases h : k' = k
    · subst h
      simp [setHost, lookupNat, Ne.symm ht]
    · simp only [setHost, if_neg h, lookupNat]
      by_cases h2 : k' = t
      · simp [h2]
      · simp [h2, lookupNat_setHost_ne rest k n t ht]

lemma countKey_setHost : ∀ (nr : List (String × Nat)) (k : String) (n : Nat) (s : String),
    countKey (setHost nr k n) s =
      if lookupNat nr k = none ∧ k = s then countKey nr s + 1 else countKey nr s
  | [], k, n, s => by
    by_cases h : k = s <;> simp [setHost, countKey, lookupNat, h]
  | (k', v) :: rest, k, n, s => by
    by_cases h : k' = k
    · subst h
      simp [setHost, countKey, lookupNat]
    · rw [show setHost ((k', v) :: rest) k n = (k', v) :: setHost rest k n from by
        simp [setHost, h]]
      rw [show lookupNat ((k', v) :: rest) k = lookupNat rest k from by simp [lookupNat, h]]
      simp only [countKey]
      rw [countKey_setHost rest k n s]
      by_cases h2 : lookupNat rest k = none ∧ k = s
      · simp only [if_pos h2]; omega
      · simp only [if_neg h2]

lemma nrInv_nil : nrInv [] := by
  intro s; simp [countKey, lookupNat]

lemma nrInv_setHost (nr : List (String × Nat)) (k : String) (n : Nat)
    (h : nrInv nr) : nrInv (setHost nr k n) := by
  intro s
  rw [countKey_setHost]
  by_cases hs : k = s
  · subst hs
    rw [lookupNat_setHost_self]
    rcases hlk : lookupNat nr k with _ | v
    · simp [hlk, h k, Option.isSome]
    · simp [hlk, h k, Option.isSome]
  · rw [lookupNat_setHost_ne nr k n s (fun h2 => hs h2.symm)]
    simp [hs, h s]

/-! ### Scan loop: step equations -/

lemma scanLines_skip (fwd rev : String → Bool) (l : String) (ls : List String)
    (lineno : Nat) (st : List (String × List Nat) × List (String × Nat))
    (h : pyStrip l = "" ∨ isCommentLine (pyStrip l) = true) :
    scanLines fwd rev (l :: ls) lineno st = scanLines fwd rev ls (lineno + 1) st := by
  rcases h with h | h
  · simp [scanLines, h]
  · by_cases h2 : pyStrip l = ""
    · simp [scanLines, h2]
    · simp [scanLines, h2, h]

lemma scanLines_retained (fwd rev : String → Bool) (l : String) (ls : List String)
    (lineno : Nat) (st : List (String × List Nat) × List (String × Nat))
    (host kt kd : String) (res : Bool)
    (hbl : pyStrip l ≠ "") (hc : isCommentLine (pyStrip l) = false)
    (hsp : pySplit (pyStrip l) = [host, kt, kd])
    (hcl : classifyHost fwd rev host = some res) :
    scanLines fwd rev (l :: ls) lineno st =
      scanLines fwd rev ls (lineno + 1)
        (addEntry st.1 (pyStrip l) (lineno + 1),
         if res then st.2 else setHost st.2 host (lineno + 1)) := by
  simp [scanLines, hbl, hc, hsp, hcl]

/-! ### Scan loop: a successful scan means every retained line had three
fields -/

lemma scanLines_ok_fields (fwd rev : String → Bool) :
    ∀ (ls : List String) (lineno : Nat)
      (st res : List (String × List Nat) × List (String × Nat)),
      scanLines fwd rev ls lineno st = some res →
      ∀ l ∈ ls, pyStrip l ≠ "" → isCommentLine (pyStrip l) = false →
        (pySplit (pyStrip l)).length = 3 := by
  intro ls
  induction ls with
  | nil =>
    intro lineno st res h l hl
    exact absurd hl (List.not_mem_nil l)
  | cons a as ih =>
    intro lineno st res h l hl hne hnc
    by_cases hbl : pyStrip a = ""
    · rw [scanLines_skip fwd rev a as lineno st (Or.inl hbl)] at h
      rcases List.mem_cons.mp hl with rfl | hl2
      · exact absurd hbl hne
      · exact ih (lineno + 1) st res h l hl2 hne hnc
    · by_cases hcm : isCommentLine (pyStrip a) = true
      · rw [scanLines_skip fwd rev a as lineno st (Or.inr hcm)] at h
        rcases List.mem_cons.mp hl with rfl | hl2
        · exact absurd hcm (by simp [hnc])
        · exact ih (lineno + 1) st res h l hl2 hne hnc
      · have hcf : isCommentLine (pyStrip a) = false := by simpa using hcm
        rcases hsp : pySplit (pyStrip a) with _ | ⟨x, _ | ⟨y, _ | ⟨z, _ | ⟨w, ws⟩⟩⟩⟩
        · simp [scanLines, hbl, hcf, hsp] at h
        · simp [scanLines, hbl, hcf, hsp] at h
        · simp [scanLines, hbl, hcf, hsp] at h
        · rcases hcl : classifyHost fwd rev x with _ | r
          · simp [scanLines, hbl, hcf, hsp, hcl] at h
          · rw [scanLines_retained fwd rev a as lineno st x y z r hbl hcf hsp hcl] at h
            rcases List.mem_cons.mp hl with rfl | hl2
            · simp [hsp]
            · exact ih (lineno + 1) _ res h l hl2 hne hnc
        · simp [scanLines, hbl, hcf, hsp] at h

/-! ### Combination lemmas for the duplicate-index invariant -/

lemma combineOcc_nil : ∀ o : Option (List Nat), combineOcc o [] = o
  | none => rfl
  | some v => by simp [combineOcc]

lemma combineOcc_push (o : Option (List Nat)) (n : Nat) (occ : List Nat) :
    combineOcc (some (o.getD [] ++ [n])) occ = combineOcc o (n :: occ) := by
  cases o with
  | none => cases occ <;> simp [combineOcc]
  | some v => cases occ <;> simp [combineOcc]

/-! ### The duplicate-index invariant of the scan loop -/

lemma scanLines_ae_lookup (fwd rev : String → Bool) (text : String) :
    ∀ (ls : List String) (lineno : Nat) (ae0 : List (String × List Nat))
      (nr0 : List (String × Nat)) (ae : List (String × List Nat))
      (nrh : List (String × Nat)),
      scanLines fwd rev ls lineno (ae0, nr0) = some (ae, nrh) →
      lookupList ae text = combineOcc (lookupList ae0 text) (retainedOccs ls lineno text) := by
  intro ls
  induction ls with
  | nil =>
    intro lineno ae0 nr0 ae nrh h
    simp only [scanLines, Option.some.injEq, Prod.mk.injEq] at h
    rw [← h.1]
    simp [retainedOccs, combineOcc_nil]
  | cons a as ih =>
    intro lineno ae0 nr0 ae nrh h
    by_cases hbl : pyStrip a = ""
    · rw [scanLines_skip fwd rev a as lineno (ae0, nr0) (Or.inl hbl)] at h
      rw [show retainedOccs (a :: as) lineno text = retainedOccs as (lineno + 1) text from by
        simp only [retainedOccs]; rw [if_neg (fun hcon => hcon.1 hbl)]]
      exact ih (lineno + 1) ae0 nr0 ae nrh h
    · by_cases hcm : isCommentLine (pyStrip a) = true
      · rw [scanLines_skip fwd rev a as lineno (ae0, nr0) (Or.inr hcm)] at h
        rw [show retainedOccs (a :: as) lineno text = retainedOccs as (lineno + 1) text from by
          simp only [retainedOccs]
          rw [if_neg (fun hcon => by rw [hcm] at hcon; exact Bool.noConfusion hcon.2.1)]]
        exact ih (lineno + 1) ae0 nr0 ae nrh h
      · have hcf : isCommentLine (pyStrip a) = false := by simpa using hcm
        rcases hsp : pySplit (pyStrip a) with _ | ⟨x, _ | ⟨y, _ | ⟨z, _ | ⟨w, ws⟩⟩⟩⟩
        · simp [scanLines, hbl, hcf, hsp] at h
        · simp [scanLines, hbl, hcf, hsp] at h
        · simp [scanLines, hbl, hcf, hsp] at h
        · rcases hcl : classifyHost fwd rev x with _ | r
          · simp [scanLines, hbl, hcf, hsp, hcl] at h
          · rw [scanLines_retained fwd rev a as lineno (ae0, nr0) x y z r hbl hcf hsp hcl] at h
            have hih := ih (lineno + 1) (addEntry ae0 (pyStrip a) (lineno + 1))
              (if r then nr0 else setHost nr0 x (lineno + 1)) ae nrh h
            by_cases ht : pyStrip a = text
            · rw [show retainedOccs (a :: as) lineno text =
                  (lineno + 1) :: retainedOccs as (lineno + 1) text from by
                simp only [retainedOccs]; rw [if_pos ⟨hbl, hcf, ht⟩]]
              rw [hih, ht, lookupList_addEntry_self, combineOcc_push]
            · rw [show retainedOccs (a :: as) lineno text = retainedOccs as (lineno + 1) text from by
                simp only [retainedOccs]; rw [if_neg (fun hcon => ht hcon.2.2)]]
              rw [hih, lookupList_addEntry_ne ae0 (pyStrip a) (lineno + 1) text
                (fun hh => ht hh.symm)]
        · simp [scanLines, hbl, hcf, hsp] at h

/-! ### Last-occurrence lemmas -/

lemma lastOpt_cons_isSome : ∀ (m : Nat) (rest : List Nat), (lastOpt (m :: rest)).isSome = true
  | _, [] => rfl
  | m, r :: rs => by
    rw [show lastOpt (m :: r :: rs) = lastOpt (r :: rs) from by simp [lastOpt]]
    exact lastOpt_cons_isSome r rs

lemma lastOpt_ne_nil_isSome (l : List Nat) (h : l ≠ []) : (lastOpt l).isSome = true := by
  cases l with
  | nil => exact absurd rfl h
  | cons m rest => exact lastOpt_cons_isSome m rest

lemma lastOr_cons (o : Option Nat) (n : Nat) (l : List Nat) :
    lastOr o (n :: l) = lastOr (some n) l := by
  cases l with
  | nil => simp [lastOr, lastOpt]
  | cons m rest =>
    rcases hl : lastOpt (m :: rest) with _ | k
    · exact absurd (congrArg Option.isSome hl) (by simp [lastOpt_cons_isSome])
    · simp [lastOr, lastOpt, hl]

lemma lastOr_none (l : List Nat) : lastOr none l = lastOpt l := by
  rcases h : lastOpt l with _ | k <;> simp [lastOr, h]

/-! ### The non-resolving-index invariants of the scan loop -/

lemma scanLines_nr_lookup (fwd rev : String → Bool) (host : String) :
    ∀ (ls : List String) (lineno : Nat) (ae0 : List (String × List Nat))
      (nr0 : List (String × Nat)) (ae : List (String × List Nat))
      (nrh : List (String × Nat)),
      scanLines fwd rev ls lineno (ae0, nr0) = some (ae, nrh) →
      lookupNat nrh host =
        lastOr (lookupNat nr0 host) (tokenFailLines fwd rev ls lineno host) := by
  intro ls
  induction ls with
  | nil =>
    intro lineno ae0 nr0 ae nrh h
    simp only [scanLines, Option.some.injEq, Prod.mk.injEq] at h
    rw [← h.2]
    simp [tokenFailLines, lastOr, lastOpt]
  | cons a as ih =>
    intro lineno ae0 nr0 ae nrh h
    by_cases hbl : pyStrip a = ""
    · rw [scanLines_skip fwd rev a as lineno (ae0, nr0) (Or.inl hbl)] at h
      rw [show tokenFailLines fwd rev (a :: as) lineno host =
          tokenFailLines fwd rev as (lineno + 1) host from by
        simp only [tokenFailLines]; rw [if_pos (Or.inl hbl)]]
      exact ih (lineno + 1) ae0 nr0 ae nrh h
    · by_cases hcm : isCommentLine (pyStrip a) = true
      · rw [scanLines_skip fwd rev a as lineno (ae0, nr0) (Or.inr hcm)] at h
        rw [show tokenFailLines fwd rev (a :: as) lineno host =
            tokenFailLines fwd rev as (lineno + 1) host from by
          simp only [tokenFailLines]; rw [if_pos (Or.inr hcm)]]
        exact ih (lineno + 1) ae0 nr0 ae nrh h
      · have hcf : isCommentLine (pyStrip a) = false := by simpa using hcm
        have hnor : ¬(pyStrip a = "" ∨ isCommentLine (pyStrip a) = true) := by
          rintro (hx | hx)
          · exact hbl hx
          · rw [hcf] at hx; exact Bool.noConfusion hx
        rcases hsp : pySplit (pyStrip a) with _ | ⟨x, _ | ⟨y, _ | ⟨z, _ | ⟨w, ws⟩⟩⟩⟩
        · simp [scanLines, hbl, hcf, hsp] at h
        · simp [scanLines, hbl, hcf, hsp] at h
        · simp [scanLines, hbl, hcf, hsp] at h
        · rcases hcl : classifyHost fwd rev x with _ | r
          · simp [scanLines, hbl, hcf, hsp, hcl] at h
          · rw [scanLines_retained fwd rev a as lineno (ae0, nr0) x y z r hbl hcf hsp hcl] at h
            have hih := ih (lineno + 1) (addEntry ae0 (pyStrip a) (lineno + 1))
              (if r then nr0 else setHost nr0 x (lineno + 1)) ae nrh h
            cases r with
            | true =>
              rw [show tokenFailLines fwd rev (a :: as) lineno host =
                  tokenFailLines fwd rev as (lineno + 1) host from by
                simp only [tokenFailLines]; rw [if_neg hnor, hsp]
                simp [hcl]]
              simpa using hih
            | false =>
              by_cases hx : x = host
              · rw [show tokenFailLines fwd rev (a :: as) lineno host =
                    (lineno + 1) :: tokenFailLines fwd rev as (lineno + 1) host from by
                  simp only [tokenFailLines]; rw [if_neg hnor, hsp]
                  subst hx; simp [hcl]]
                rw [lastOr_cons]
                simp only [if_neg Bool.false_ne_true] at hih
                rw [hih, hx, lookupNat_setHost_self]
              · rw [show tokenFailLines fwd rev (a :: as) lineno host =
                    tokenFailLines fwd rev as (lineno + 1) host from by
                  simp only [tokenFailLines]; rw [if_neg hnor, hsp]
                  simp [hx]]
                simp only [if_neg Bool.false_ne_true] at hih
                rw [hih, lookupNat_setHost_ne nr0 x (lineno + 1) host
                  (fun hh => hx hh.symm)]
        · simp [scanLines, hbl, hcf, hsp] at h

lemma scanLines_nrInv (fwd rev : String → Bool) :
    ∀ (ls : List String) (lineno : Nat) (ae0 : List (String × List Nat))
      (nr0 : List (String × Nat)) (ae : List (String × List Nat))
      (nrh : List (String × Nat)),
      scanLines fwd rev ls lineno (ae0, nr0) = some (ae, nrh) →
      nrInv nr0 → nrInv nrh := by
  intro ls
  induction ls with
  | nil =>
    intro lineno ae0 nr0 ae nrh h hinv
    simp only [scanLines, Option.some.injEq, Prod.mk.injEq] at h
    rw [← h.2]
    exact hinv
  | cons a as ih =>
    intro lineno ae0 nr0 ae nrh h hinv
    by_cases hbl : pyStrip a = ""
    · rw [scanLines_skip fwd rev a as lineno (ae0, nr0) (Or.inl hbl)] at h
      exact ih (lineno + 1) ae0 nr0 ae nrh h hinv
    · by_cases hcm : isCommentLine (pyStrip a) = true
      · rw [scanLines_skip fwd rev a as lineno (ae0, nr0) (Or.inr hcm)] at h
        exact ih (lineno + 1) ae0 nr0 ae nrh h hinv
      · have hcf : isCommentLine (pyStrip a) = false := by simpa using hcm
        rcases hsp : pySplit (pyStrip a) with _ | ⟨x, _ | ⟨y, _ | ⟨z, _ | ⟨w, ws⟩⟩⟩⟩
        · simp [scanLines, hbl, hcf, hsp] at h
        · simp [scanLines, hbl, hcf, hsp] at h
        · simp [scanLines, hbl, hcf, hsp] at h
        · rcases hcl : classifyHost fwd rev x with _ | r
          · simp [scanLines, hbl, hcf, hsp, hcl] at h
          · rw [scanLines_retained fwd rev a as lineno (ae0, nr0) x y z r hbl hcf hsp hcl] at h
            cases r with
            | true => exact ih (lineno + 1) _ nr0 ae nrh (by simpa using h) hinv
            | false =>
              exact ih (lineno + 1) _ (setHost nr0 x (lineno + 1)) ae nrh
                (by simpa using h) (nrInv_setHost nr0 x (lineno + 1) hinv)
        · simp [scanLines, hbl, hcf, hsp] at h

/-! ### Position and ordering of the recorded occurrences -/

lemma retainedOccs_gt (text : String) :
    ∀ (ls : List String) (base : Nat) (n : Nat), n ∈ retainedOccs ls base text → base < n := by
  intro ls
  induction ls with
  | nil => intro base n h; simp [retainedOccs] at h
  | cons l ls ih =>
    intro base n h
    by_cases hcond : pyStrip l ≠ "" ∧ isCommentLine (pyStrip l) = false ∧ pyStrip l = text
    · rw [show retainedOccs (l :: ls) base text =
          (base + 1) :: retainedOccs ls (base + 1) text from by
        simp only [retainedOccs]; rw [if_pos hcond]] at h
      rcases List.mem_cons.mp h with rfl | h2
      · omega
      · have := ih (base + 1) n h2; omega
    · rw [show retainedOccs (l :: ls) base text = retainedOccs ls (base + 1) text from by
        simp only [retainedOccs]; rw [if_neg hcond]] at h
      have := ih (base + 1) n h; omega

lemma retainedOccs_chain (text : String) :
    ∀ (ls : List String) (base : Nat),
      List.Chain' (fun a b => a < b) (retainedOccs ls base text) := by
  intro ls
  induction ls with
  | nil => intro base; simp [retainedOccs]
  | cons l ls ih =>
    intro base
    by_cases hcond : pyStrip l ≠ "" ∧ isCommentLine (pyStrip l) = false ∧ pyStrip l = text
    · rw [show retainedOccs (l :: ls) base text =
          (base + 1) :: retainedOccs ls (base + 1) text from by
        simp only [retainedOccs]; rw [if_pos hcond]]
      refine List.chain'_cons'.mpr ⟨?_, ih (base + 1)⟩
      intro y hy
      exact retainedOccs_gt text ls (base + 1) y (List.mem_of_mem_head? hy)
    · rw [show retainedOccs (l :: ls) base text = retainedOccs ls (base + 1) text from by
        simp only [retainedOccs]; rw [if_neg hcond]]
      exact ih (base + 1)

lemma retainedOccs_mem (text : String) :
    ∀ (ls : List String) (base : Nat) (n : Nat), n ∈ retainedOccs ls base text →
      base + 1 ≤ n ∧ ∃ l, ls.get? (n - base - 1) = some l ∧ pyStrip l = text ∧
        pyStrip l ≠ "" ∧ isCommentLine (pyStrip l) = false := by
  intro ls
  induction ls with
  | nil => intro base n h; simp [retainedOccs] at h
  | cons l ls ih =>
    intro base n h
    by_cases hcond : pyStrip l ≠ "" ∧ isCommentLine (pyStrip l) = false ∧ pyStrip l = text
    · rw [show retainedOccs (l :: ls) base text =
          (base + 1) :: retainedOccs ls (base + 1) text from by
        simp only [retainedOccs]; rw [if_pos hcond]] at h
      rcases List.mem_cons.mp h with rfl | h2
      · refine ⟨le_refl _, l, ?_, hcond.2.2, hcond.1, hcond.2.1⟩
        rw [show base + 1 - base - 1 = 0 from by omega]
        rfl
      · obtain ⟨hle, l', hget, hprop⟩ := ih (base + 1) n h2
        refine ⟨by omega, l', ?_, hprop⟩
        rw [show n - base - 1 = (n - (base + 1) - 1) + 1 from by omega]
        simpa using hget
    · rw [show retainedOccs (l :: ls) base text = retainedOccs ls (base + 1) text from by
        simp only [retainedOccs]; rw [if_neg hcond]] at h
      obtain ⟨hle, l', hget, hprop⟩ := ih (base + 1) n h
      refine ⟨by omega, l', ?_, hprop⟩
      rw [show n - base - 1 = (n - (base + 1) - 1) + 1 from by omega]
      simpa using hget

/-! ### Reporter lemmas: merged mode -/

lemma emitCands_nonsplit (args : Args) (filename : String) (h : args.split_sed = false) :
    ∀ (ns : List Nat) (s : String),
      emitCands args filename ns s = ([], s ++ concatStrs (ns.map sedExpr))
  | [], s => by simp [emitCands, concatStrs, str_append_nil]
  | n :: ns, s => by
    rw [show emitCands args filename (n :: ns) s =
        emitCands args filename ns (s ++ sedExpr n) from by simp [emitCands, h]]
    rw [emitCands_nonsplit args filename h ns (s ++ sedExpr n)]
    simp only [List.map_cons, concatStrs, str_append_assoc]

lemma dupLoop_nonsplit (args : Args) (filename : String) (h : args.split_sed = false) :
    ∀ (ae : List (String × List Nat)) (s : String),
      dupLoop args filename ae s = ([], s ++ concatStrs ((dupCands ae).map sedExpr))
  | [], s => by simp [dupLoop, dupCands, concatStrs, str_append_nil]
  | (fline, linenos) :: rest, s => by
    by_cases hlen : linenos.length > 1
    · simp only [dupLoop, if_pos hlen, h, Bool.and_false,
        emitCands_nonsplit args filename h,
        dupLoop_nonsplit args filename h rest]
      simp [dupCands, hlen, concatStrs_append, List.map_append, str_append_assoc]
    · simp only [dupLoop, if_neg hlen, dupLoop_nonsplit args filename h rest]
      simp [dupCands, hlen]

lemma nrLoop_nonsplit (args : Args) (filename : String) (h : args.split_sed = false) :
    ∀ (nrh : List (String × Nat)) (s : String),
      nrLoop args filename nrh s = ([], s ++ concatStrs ((nrh.map Prod.snd).map sedExpr))
  | [], s => by simp [nrLoop, concatStrs, str_append_nil]
  | (host, lineno) :: rest, s => by
    simp only [nrLoop, h]
    simp [nrLoop_nonsplit args filename h rest, concatStrs, str_append_assoc]

lemma print_duplicates_merged (args : Args) (ae : List (String × List Nat))
    (filename : String) (h : args.split_sed = false) :
    print_duplicates args ae filename =
      (if args.verbose then ["# Duplicate entries:"] else []) ++
        (if dupCands ae = [] then []
         else ["sed " ++ concatStrs ((dupCands ae).map sedExpr) ++ " " ++ filename]) := by
  unfold print_duplicates
  rw [dupLoop_nonsplit args filename h ae "", str_nil_append]
  by_cases hc : dupCands ae = []
  · simp [hc, concatStrs]
  · rcases hd : dupCands ae with _ | ⟨n, t⟩
    · exact absurd hd hc
    · have hne : concatStrs (sedExpr n :: List.map sedExpr t) ≠ "" := by
        simp only [concatStrs]
        exact sedExpr_append_ne n _
      simp [hne, h]

lemma print_non_resolving_merged (args : Args) (nrh : List (String × Nat))
    (filename : String) (h : args.split_sed = false) :
    print_non_resolving args nrh filename =
      (if args.verbose then ["# Non-resolving entries:"] else []) ++
        (if nrh = [] then []
         else ["sed " ++ concatStrs ((nrh.map Prod.snd).map sedExpr) ++ " " ++ filename]) := by
  unfold print_non_resolving
  rw [nrLoop_nonsplit args filename h nrh "", str_nil_append]
  by_cases hc : nrh = []
  · simp [hc, concatStrs]
  · rcases hd : nrh with _ | ⟨⟨host, n⟩, t⟩
    · exact absurd hd hc
    · have hne : concatStrs (sedExpr n :: List.map (sedExpr ∘ Prod.snd) t) ≠ "" := by
        simp only [concatStrs]
        exact sedExpr_append_ne n _
      simp [hne, h]

/-! ### Reporter lemmas: split mode -/

lemma emitCands_split (args : Args) (filename : String) (h : args.split_sed = true) :
    ∀ (ns : List Nat) (s : String),
      emitCands args filename ns s = (ns.map (fun n => sedSplitCmd n filename), s)
  | [], s => by simp [emitCands]
  | n :: ns, s => by simp [emitCands, h, emitCands_split args filename h ns s]

lemma filter_sedSplitCmds (filename : String) :
    ∀ ns : List Nat,
      (ns.map (fun n => sedSplitCmd n filename)).filter isSedLine =
        ns.map (fun n => sedSplitCmd n filename)
  | [] => rfl
  | n :: ns => by
    simp [List.filter_cons, isSedLine_split, filter_sedSplitCmds filename ns]

lemma isSedLine_of_mem_map_cmd (filename : String) (ns : List Nat) (a : String)
    (ha : a ∈ ns.map (fun n => sedSplitCmd n filename)) : isSedLine a = true := by
  obtain ⟨m, _, rfl⟩ := List.mem_map.mp ha
  exact isSedLine_split m filename

lemma dupLoop_split_filter (args : Args) (filename : String) (h : args.split_sed = true) :
    ∀ (ae : List (String × List Nat)) (s : String),
      ((dupLoop args filename ae s).1).filter isSedLine =
        (dupCands ae).map (fun n => sedSplitCmd n filename)
  | [], s => by simp [dupLoop, dupCands]
  | (fline, linenos) :: rest, s => by
    by_cases hlen : linenos.length > 1
    · by_cases hv : args.verbose = true
      · simp only [dupLoop, if_pos hlen, emitCands_split args filename h, h, hv,
          Bool.and_true, if_true]
        simp [List.filter_append, List.filter_cons, isSedLine_dupDiag,
          filter_sedSplitCmds, dupLoop_split_filter args filename h rest s,
          dupCands, hlen]
        intro a ha
        exact isSedLine_of_mem_map_cmd filename linenos a (List.mem_of_mem_tail ha)
      · have hv2 : args.verbose = false := by simpa using hv
        simp only [dupLoop, if_pos hlen, emitCands_split args filename h, h, hv2,
          Bool.false_and, if_false]
        simp [List.filter_append, filter_sedSplitCmds,
          dupLoop_split_filter args filename h rest s, dupCands, hlen]
        intro a ha
        exact isSedLine_of_mem_map_cmd filename linenos a (List.mem_of_mem_tail ha)
    · simp [dupLoop, hlen, dupLoop_split_filter args filename h rest s, dupCands]

lemma nrLoop_split_filter (args : Args) (filename : String) (h : args.split_sed = true) :
    ∀ (nrh : List (String × Nat)) (s : String),
      ((nrLoop args filename nrh s).1).filter isSedLine =
        nrh.map (fun p => sedSplitCmd p.2 filename)
  | [], s => by simp [nrLoop]
  | (host, lineno) :: rest, s => by
    by_cases hv : args.verbose = true
    · simp [nrLoop, h, hv, List.filter_append, List.filter_cons, isSedLine_nrDiag,
        isSedLine_split, nrLoop_split_filter args filename h rest s]
    · have hv2 : args.verbose = false := by simpa using hv
      simp [nrLoop, h, hv2, List.filter_cons, isSedLine_split,
        nrLoop_split_filter args filename h rest s]

lemma print_duplicates_split_filter (args : Args) (ae : List (String × List Nat))
    (filename : String) (h : args.split_sed = true) :
    (print_duplicates args ae filename).filter isSedLine =
      (dupCands ae).map (fun n => sedSplitCmd n filename) := by
  by_cases hv : args.verbose = true
  · simp [print_duplicates, h, hv, List.filter_append, List.filter_cons,
      isSedLine_dupHeader, dupLoop_split_filter args filename h ae ""]
  · have hv2 : args.verbose = false := by simpa using hv
    simp [print_duplicates, h, hv2, List.filter_append,
      dupLoop_split_filter args filename h ae ""]

lemma print_non_resolving_split_filter (args : Args) (nrh : List (String × Nat))
    (filename : String) (h : args.split_sed = true) :
    (print_non_resolving args nrh filename).filter isSedLine =
      nrh.map (fun p => sedSplitCmd p.2 filename) := by
  by_cases hv : args.verbose = true
  · simp [print_non_resolving, h, hv, List.filter_append, List.filter_cons,
      isSedLine_nrHeader, nrLoop_split_filter args filename h nrh ""]
  · have hv2 : args.verbose = false := by simpa using hv
    simp [print_non_resolving, h, hv2, List.filter_append,
      nrLoop_split_filter args filename h nrh ""]

/-! ### Claim theorems -/

/-- Claim C1: in a completed scan, a trimmed non-blank non-comment line
text occurring N ≥ 2 times yields, as the duplicates-report candidates
for that text, exactly the N - 1 line numbers of all its occurrences
except the first, in ascending file order. -/
theorem claim_C1 (fwd rev : String → Bool) (flines : List String)
    (ae : List (String × List Nat)) (nrh : List (String × Nat))
    (text : String) (N : Nat)
    (hscan : scanLines fwd rev flines 0 ([], []) = some (ae, nrh))
    (hN : (retainedOccs flines 0 text).length = N) (hN2 : 2 ≤ N) :
    lookupList ae text = some (retainedOccs flines 0 text) ∧
    dupCandsFor ae text = (retainedOccs flines 0 text).drop 1 ∧
    (dupCandsFor ae text).length = N - 1 ∧
    List.Chain' (fun a b => a < b) (retainedOccs flines 0 text) := by
  have hlk := scanLines_ae_lookup fwd rev text flines 0 [] [] ae nrh hscan
  have hchain := retainedOccs_chain text flines 0
  rcases hocc : retainedOccs flines 0 text with _ | ⟨m, t⟩
  · rw [hocc] at hN; simp at hN; omega
  · rw [hocc] at hlk hchain hN
    have hlk2 : lookupList ae text = some (m :: t) := by
      simpa [lookupList, combineOcc] using hlk
    simp only [List.length_cons] at hN
    have hlt : 0 < t.length := by omega
    refine ⟨hlk2, ?_, ?_, hchain⟩
    · simp [dupCandsFor, hlk2, hlt]
    · simp [dupCandsFor, hlk2, hlt]
      omega

/-- Witness for C1 at a concrete four-line file where the text occurs on
lines 1, 3 and 4. -/
theorem claim_C1_witness :
    lookupList [("a b c", [1, 3, 4])] "a b c" =
      some (retainedOccs ["a b c", "", "a b c", "a b c"] 0 "a b c") ∧
    dupCandsFor [("a b c", [1, 3, 4])] "a b c" =
      (retainedOccs ["a b c", "", "a b c", "a b c"] 0 "a b c").drop 1 ∧
    (dupCandsFor [("a b c", [1, 3, 4])] "a b c").length = 3 - 1 ∧
    List.Chain' (fun a b => a < b) (retainedOccs ["a b c", "", "a b c", "a b c"] 0 "a b c") :=
  claim_C1 (fun _ => true) (fun _ => true) ["a b c", "", "a b c", "a b c"]
    [("a b c", [1, 3, 4])] [] "a b c" 3 (by decide) (by decide) (by decide)

/-- Claim C2: in a completed scan, a host token with at least one failing
retained line yields exactly one non-resolving candidate, keyed by that
token, and its recorded line number is that of the last failing
occurrence. -/
theorem claim_C2 (fwd rev : String → Bool) (flines : List String)
    (ae : List (String × List Nat)) (nrh : List (String × Nat)) (host : String)
    (hscan : scanLines fwd rev flines 0 ([], []) = some (ae, nrh))
    (hfail : tokenFailLines fwd rev flines 0 host ≠ []) :
    countKey nrh host = 1 ∧
    lookupNat nrh host = lastOpt (tokenFailLines fwd rev flines 0 host) := by
  have hlk := scanLines_nr_lookup fwd rev host flines 0 [] [] ae nrh hscan
  rw [show lookupNat [] host = none from rfl, lastOr_none] at hlk
  have hinv := scanLines_nrInv fwd rev flines 0 [] [] ae nrh hscan nrInv_nil
  refine ⟨?_, hlk⟩
  have hsome : (lookupNat nrh host).isSome = true := by
    rw [hlk]; exact lastOpt_ne_nil_isSome _ hfail
  have hck := hinv host
  rw [hsome] at hck
  simpa using hck

/-- Witness for C2: the same token fails on lines 1 and 2, and line 2 is
the recorded candidate. -/
theorem claim_C2_witness :
    countKey [("h", 2)] "h" = 1 ∧
    lookupNat [("h", 2)] "h" =
      lastOpt (tokenFailLines (fun _ => false) (fun _ => false) ["h x y", "h x y"] 0 "h") :=
  claim_C2 (fun _ => false) (fun _ => false) ["h x y", "h x y"]
    [("h x y", [1, 2])] [("h", 2)] "h" (by decide) (by decide)

/-- Claim C3 counterexample: the token `a,b,c` contains a comma, yet the
classifier does not forward-resolve a hostname part — it raises the
modelled unpacking exception (`none`), so even with an always-resolving
forward oracle the claimed classification `some true` is not produced. -/
theorem claim_C3_counterexample :
    containsChar "a,b,c" ',' = true ∧
    classifyHost (fun _ => true) (fun _ => true) "a,b,c" = none ∧
    classifyHost (fun _ => true) (fun _ => true) "a,b,c" ≠ some true :=
  ⟨by decide, by decide, by decide⟩

/-- Claim C3 (amended): dispatch order of the classifier.  A token that
splits at commas into exactly two parts is forward-resolved on the part
before the comma; a token with two or more commas raises an unhandled
unpacking exception instead of being resolved; otherwise a token with a
colon, or one matching the dotted-quad prefix pattern, is reverse-resolved
whole; all remaining tokens are forward-resolved as bare hostnames. -/
theorem claim_C3_amended (fwd rev : String → Bool) (host : String) :
    (∀ a b, containsChar host ',' = true → pySplitComma host = [a, b] →
      classifyHost fwd rev host = some (fwd a)) ∧
    (containsChar host ',' = true → 3 ≤ (pySplitComma host).length →
      classifyHost fwd rev host = none) ∧
    (containsChar host ',' = false → containsChar host ':' = true →
      classifyHost fwd rev host = some (rev host)) ∧
    (containsChar host ',' = false → containsChar host ':' = false →
      dottedQuadMatch host = true → classifyHost fwd rev host = some (rev host)) ∧
    (containsChar host ',' = false → containsChar host ':' = false →
      dottedQuadMatch host = false → classifyHost fwd rev host = some (fwd host)) := by
  refine ⟨?_, ?_, ?_, ?_, ?_⟩
  · intro a b hc hsp
    simp [classifyHost, hc, hsp]
  · intro hc hlen
    rcases hsp : pySplitComma host with _ | ⟨a, _ | ⟨b, _ | ⟨c, t⟩⟩⟩
    · rw [hsp] at hlen; simp at hlen
    · rw [hsp] at hlen; simp at hlen
    · rw [hsp] at hlen; simp at hlen
    · simp [classifyHost, hc, hsp]
  · intro hc hcol
    simp [classifyHost, hc, hcol]
  · intro hc hcol hq
    simp [classifyHost, hc, hcol, hq]
  · intro hc hcol hq
    simp [classifyHost, hc, hcol, hq]

/-- Witness for the amended C3 at a comma-paired token: the hostname part
is forward-resolved. -/
theorem claim_C3_amended_witness :
    classifyHost (fun _ => true) (fun _ => false) "example.com,10.0.0.1" = some true :=
  (claim_C3_amended (fun _ => true) (fun _ => false) "example.com,10.0.0.1").1
    "example.com" "10.0.0.1" (by decide) (by decide)

/-- Claim C4: blank and comment lines are skipped without being classified
or recorded but still advance the line counter, and every line number
recorded in the duplicate index is the 1-based file position of a
retained line with exactly that stripped text. -/
theorem claim_C4 :
    (∀ (fwd rev : String → Bool) (l : String) (ls : List String) (lineno : Nat)
       (st : List (String × List Nat) × List (String × Nat)),
       pyStrip l = "" ∨ isCommentLine (pyStrip l) = true →
       scanLines fwd rev (l :: ls) lineno st = scanLines fwd rev ls (lineno + 1) st) ∧
    (∀ (fwd rev : String → Bool) (flines : List String)
       (ae : List (String × List Nat)) (nrh : List (String × Nat))
       (text : String) (linenos : List Nat) (n : Nat),
       scanLines fwd rev flines 0 ([], []) = some (ae, nrh) →
       lookupList ae text = some linenos → n ∈ linenos →
       1 ≤ n ∧ ∃ l, flines.get? (n - 1) = some l ∧ pyStrip l = text ∧
         pyStrip l ≠ "" ∧ isCommentLine (pyStrip l) = false) := by
  constructor
  · intro fwd rev l ls lineno st h
    exact scanLines_skip fwd rev l ls lineno st h
  · intro fwd rev flines ae nrh text linenos n hscan hlk hn
    have hae := scanLines_ae_lookup fwd rev text flines 0 [] [] ae nrh hscan
    rw [hlk] at hae
    have hocc : linenos = retainedOccs flines 0 text := by
      rcases h2 : retainedOccs flines 0 text with _ | ⟨m, t⟩
      · rw [h2] at hae; simp [lookupList, combineOcc] at hae
      · rw [h2] at hae
        simpa [lookupList, combineOcc] using hae
    rw [hocc] at hn
    obtain ⟨hle, l, hget, hprop⟩ := retainedOccs_mem text flines 0 n hn
    refine ⟨by omega, l, ?_, hprop⟩
    rw [show n - 1 = n - 0 - 1 from by omega]
    exact hget

/-- Witness for C4: a comment line is skipped with the counter advanced. -/
theorem claim_C4_witness :
    scanLines (fun _ => true) (fun _ => true) ["# note", "a b c"] 0 ([], []) =
      scanLines (fun _ => true) (fun _ => true) ["a b c"] 1 ([], []) :=
  claim_C4.1 (fun _ => true) (fun _ => true) "# note" ["a b c"] 0 ([], [])
    (Or.inr (by decide))

/-- Claim C5 counterexample: a merged-mode run with one duplicate candidate
and one non-resolving candidate prints two separate sed invocations (one
per report), not a single sed invocation holding all candidates. -/
theorem claim_C5_counterexample :
    mainRun ⟨false, some "kh", true, true, false⟩ (fun s => !(s == "badhost"))
        (fun _ => true) none
        (Except.ok ["h1 ssh-rsa AAA", "h1 ssh-rsa AAA", "badhost ssh-rsa BBB"]) =
      Except.ok ["sed  -e \x272s/^\\(.*\\)/##  \\1/\x27 kh",
        "sed  -e \x273s/^\\(.*\\)/##  \\1/\x27 kh"] ∧
    ((["sed  -e \x272s/^\\(.*\\)/##  \\1/\x27 kh",
        "sed  -e \x273s/^\\(.*\\)/##  \\1/\x27 kh"] : List String).filter isSedLine).length = 2 :=
  ⟨rfl, rfl⟩

/-- Claim C5 (amended): in merged mode, each enabled report that has at
least one candidate prints exactly one sed invocation, holding one `-e`
substitution expression per candidate line number of that report (each
expression rewriting line N to `##` plus two spaces plus the original
content); a run with candidates in both reports therefore prints one such
invocation per report, not one overall. -/
theorem claim_C5_amended (args : Args) (ae : List (String × List Nat))
    (nrh : List (String × Nat)) (filename : String)
    (hsplit : args.split_sed = false) :
    print_duplicates args ae filename =
      (if args.verbose then ["# Duplicate entries:"] else []) ++
        (if dupCands ae = [] then []
         else ["sed " ++ concatStrs ((dupCands ae).map sedExpr) ++ " " ++ filename]) ∧
    print_non_resolving args nrh filename =
      (if args.verbose then ["# Non-resolving entries:"] else []) ++
        (if nrh = [] then []
         else ["sed " ++ concatStrs ((nrh.map Prod.snd).map sedExpr) ++ " " ++ filename]) :=
  ⟨print_duplicates_merged args ae filename hsplit,
   print_non_resolving_merged args nrh filename hsplit⟩

/-- Witness for the amended C5 at a two-occurrence duplicate index. -/
theorem claim_C5_amended_witness :
    print_duplicates ⟨false, none, true, true, false⟩ [("x", [1, 2])] "f" =
      ["sed  -e \x272s/^\\(.*\\)/##  \\1/\x27 f"] :=
  ((claim_C5_amended ⟨false, none, true, true, false⟩ [("x", [1, 2])] [("h", 3)] "f"
    rfl).1).trans rfl

/-- Claim C6: in split mode with both reports enabled, the actionable
output lines of a completed run are exactly one standalone sed command per
duplicate candidate followed by one per non-resolving candidate, each
command built from a single line number. -/
theorem claim_C6 (args : Args) (fwd rev : String → Bool) (home : Option String)
    (flines : List String) (ae : List (String × List Nat)) (nrh : List (String × Nat))
    (hsplit : args.split_sed = true) (hd : args.duplicates = true)
    (hr : args.non_resolving = true)
    (hscan : scanLines fwd rev flines 0 ([], []) = some (ae, nrh)) :
    (mainOutput (mainRun args fwd rev home (Except.ok flines))).filter isSedLine =
      (dupCands ae).map (fun n => sedSplitCmd n (computeFilename args.hostsfile home)) ++
        nrh.map (fun p => sedSplitCmd p.2 (computeFilename args.hostsfile home)) := by
  simp only [mainRun, hscan, mainOutput, hd, hr, if_true, List.filter_append,
    print_duplicates_split_filter args ae (computeFilename args.hostsfile home) hsplit,
    print_non_resolving_split_filter args nrh (computeFilename args.hostsfile home) hsplit]
  by_cases hv : args.verbose = true
  · simp [hv, List.filter_cons, isSedLine_reading]
  · have hv2 : args.verbose = false := by simpa using hv
    simp [hv2]

/-- Witness for C6: a two-line file whose single host never resolves,
scanned in split mode with both reports enabled. -/
theorem claim_C6_witness :
    (mainOutput (mainRun ⟨false, some "f", true, true, true⟩ (fun _ => false)
        (fun _ => false) none (Except.ok ["a b c", "a b c"]))).filter isSedLine =
      (dupCands [("a b c", [1, 2])]).map
        (fun n => sedSplitCmd n (computeFilename (some "f") none)) ++
        [("a", 2)].map (fun p => sedSplitCmd p.2 (computeFilename (some "f") none)) :=
  claim_C6 ⟨false, some "f", true, true, true⟩ (fun _ => false) (fun _ => false) none
    ["a b c", "a b c"] [("a b c", [1, 2])] [("a", 2)] rfl rfl rfl (by decide)

/-- Claim C7: when the hosts file cannot be opened, the run prints exactly
one message carrying the underlying reason, terminates normally
(`Except.ok`), and that message is not actionable sed output. -/
theorem claim_C7 (args : Args) (fwd rev : String → Bool) (home : Option String)
    (reason : String) :
    mainRun args fwd rev home (Except.error reason) =
      Except.ok ["Could not open hostsfile: " ++ reason] ∧
    isSedLine ("Could not open hostsfile: " ++ reason) = false :=
  ⟨rfl, isSedLine_openErr reason⟩

/-- Claim C8: with neither report flag set, a run prints at most the
verbose reading header and never any sed command. -/
theorem claim_C8 (args : Args) (fwd rev : String → Bool) (home : Option String)
    (flines : List String) (hd : args.duplicates = false)
    (hr : args.non_resolving = false) :
    mainOutput (mainRun args fwd rev home (Except.ok flines)) =
      (if args.verbose then
         ["# Reading hostsfile " ++ computeFilename args.hostsfile home]
       else []) ∧
    (mainOutput (mainRun args fwd rev home (Except.ok flines))).filter isSedLine = [] := by
  have h1 : mainOutput (mainRun args fwd rev home (Except.ok flines)) =
      (if args.verbose then
        ["# Reading hostsfile " ++ computeFilename args.hostsfile home] else []) := by
    rcases hscan : scanLines fwd rev flines 0 ([], []) with _ | st
    · simp [mainRun, hscan, mainOutput]
    · simp [mainRun, hscan, mainOutput, hd, hr]
  refine ⟨h1, ?_⟩
  rw [h1]
  by_cases hv : args.verbose = true
  · simp [hv, List.filter_cons, isSedLine_reading]
  · have hv2 : args.verbose = false := by simpa using hv
    simp [hv2]

/-- Witness for C8: a verbose run over one entry with both flags off
prints only the reading header. -/
theorem claim_C8_witness :
    mainOutput (mainRun ⟨true, none, false, false, false⟩ (fun _ => true) (fun _ => true)
        none (Except.ok ["x y z"])) = ["# Reading hostsfile .ssh/known_hosts"] :=
  ((claim_C8 ⟨true, none, false, false, false⟩ (fun _ => true) (fun _ => true) none
    ["x y z"] rfl rfl).1).trans rfl

/-- Claim C9: a retained line that does not split into exactly three
whitespace fields makes the run abort with an uncaught exception before
the report phase: the result is `Except.error` and the lines printed up to
that point hold no sed command. -/
theorem claim_C9 (args : Args) (fwd rev : String → Bool) (home : Option String)
    (flines : List String) (l : String) (hmem : l ∈ flines)
    (hne : pyStrip l ≠ "") (hnc : isCommentLine (pyStrip l) = false)
    (hfields : (pySplit (pyStrip l)).length ≠ 3) :
    mainRun args fwd rev home (Except.ok flines) =
      Except.error
        (if args.verbose then
           ["# Reading hostsfile " ++ computeFilename args.hostsfile home]
         else []) ∧
    (mainOutput (mainRun args fwd rev home (Except.ok flines))).filter isSedLine = [] := by
  rcases hscan : scanLines fwd rev flines 0 ([], []) with _ | st
  · refine ⟨by simp [mainRun, hscan], ?_⟩
    simp only [mainRun, hscan, mainOutput]
    by_cases hv : args.verbose = true
    · simp [hv, List.filter_cons, isSedLine_reading]
    · have hv2 : args.verbose = false := by simpa using hv
      simp [hv2]
  · exact absurd (scanLines_ok_fields fwd rev flines 0 ([], []) st hscan l hmem hne hnc)
      hfields

/-- Witness for C9: the malformed two-field line `a b` aborts the scan. -/
theorem claim_C9_witness :
    mainRun ⟨false, none, false, false, false⟩ (fun _ => true) (fun _ => true) none
        (Except.ok ["a b"]) = Except.error [] ∧
    (mainOutput (mainRun ⟨false, none, false, false, false⟩ (fun _ => true) (fun _ => true)
        none (Except.ok ["a b"]))).filter isSedLine = [] :=
  ⟨((claim_C9 ⟨false, none, false, false, false⟩ (fun _ => true) (fun _ => true) none
      ["a b"] "a b" (by decide) (by decide) (by decide) (by decide)).1).trans rfl,
   (claim_C9 ⟨false, none, false, false, false⟩ (fun _ => true) (fun _ => true) none
      ["a b"] "a b" (by decide) (by decide) (by decide) (by decide)).2⟩

/-- Claim C10: with no hostsfile argument and no HOME, the run falls back
to the relative path `.ssh/known_hosts` and proceeds normally. -/
theorem claim_C10 :
    computeFilename none none = ".ssh/known_hosts" ∧
    mainRun ⟨true, none, false, false, false⟩ (fun _ => true) (fun _ => true) none
        (Except.ok []) = Except.ok ["# Reading hostsfile .ssh/known_hosts"] :=
  ⟨rfl, rfl⟩
